import Mathlib

/-!
Shallow embedding of `dbms/src/DataStreams/TiRemoteBlockInputStream.h`
(class `TiRemoteBlockInputStream<RemoteReader>`).

Machine integers (`UInt64`/`size_t` counters) are modelled as `Nat`: every
operation the file performs on them is `+`, `max` or `++i`, none of which can
overflow in any scenario the claims exercise, so no modular reduction is
needed.  The per-slot map `std::unordered_map<String, ExecutionSummary>` is
modelled as a function `String → Option ExecutionSummary`; the `tipb` repeated
field `execution_summaries` is a list of entries with an optional
`executor_id` (mirroring `has_executor_id`).  The remote reader is modelled as
a script: the list of `RemoteResult`s its successive `nextResult` calls
return.  Exceptions thrown by `fetchRemoteResult` become explicit `err`
outcomes.
-/

/-- Per (source, operator) progress record (`struct ExecutionSummary`, whose
four fields are the ones read and written at
`TiRemoteBlockInputStream.h:74-77,106-121`). -/
structure ExecutionSummary where
  time_processed_ns : Nat
  num_produced_rows : Nat
  num_iterations : Nat
  concurrency : Nat
deriving Repr, DecidableEq

/-- One element of `resp.execution_summaries()`; `executor_id = none` models
`has_executor_id() = false`. -/
structure SummaryEntry where
  executor_id : Option String
  time_processed_ns : Nat
  num_produced_rows : Nat
  num_iterations : Nat
  concurrency : Nat
deriving Repr, DecidableEq

/-- The parts of `tipb::SelectResponse` the file reads: `has_error()` with its
message, and the repeated `execution_summaries` field. -/
structure SelectResponse where
  has_error : Bool
  error_msg : String
  execution_summaries : List SummaryEntry
deriving Repr, DecidableEq

/-- `std::unordered_map<String, ExecutionSummary>` as a lookup function. -/
abbrev SummaryMap := String → Option ExecutionSummary

/-- One slot of the summary table: `execution_summaries_inited[i]` paired with
`execution_summaries[i]`. -/
structure Slot where
  inited : Bool
  map : SummaryMap

theorem Slot.ext_iff_mk {s t : Slot} (h1 : s.inited = t.inited)
    (h2 : ∀ k, s.map k = t.map k) : s = t := by
  cases s; cases t
  simp only [Slot.mk.injEq]
  exact ⟨h1, funext h2⟩

def updateMap (m : SummaryMap) (id : String) (v : ExecutionSummary) : SummaryMap :=
  fun k => if k = id then some v else m k

/-- The assignment bundle `execution_summaries[index][executor_id].f = e.f()`
for the four fields (lines 74-77): a map write with the entry's raw values. -/
def entryVals (e : SummaryEntry) : ExecutionSummary :=
  ⟨e.time_processed_ns, e.num_produced_rows, e.num_iterations, e.concurrency⟩

/-- The loop body of `initRemoteExecutionSummaries` (lines 69-79): entries
without an executor id are skipped, every other entry overwrites the map at
its id with its raw values. -/
def initEntries : List SummaryEntry → SummaryMap → SummaryMap
  | [], m => m
  | e :: rest, m =>
    match e.executor_id with
    | none => initEntries rest m
    | some id => initEntries rest (updateMap m id (entryVals e))

/-- `initRemoteExecutionSummaries` (lines 67-81): populate the map, then
`execution_summaries_inited[index].store(true)`. -/
def initRemoteExecutionSummaries (resp : SelectResponse) (slot : Slot) : Slot :=
  ⟨true, initEntries resp.execution_summaries slot.map⟩

/-- The two update rules of `addRemoteExecutionSummaries` (lines 104-122):
element-wise max on a streaming call, max on time and sums elsewhere on a
batch call. -/
def mergeSummary (is_streaming_call : Bool) (cur : ExecutionSummary)
    (e : SummaryEntry) : ExecutionSummary :=
  if is_streaming_call then
    ⟨max cur.time_processed_ns e.time_processed_ns,
     max cur.num_produced_rows e.num_produced_rows,
     max cur.num_iterations e.num_iterations,
     max cur.concurrency e.concurrency⟩
  else
    ⟨max cur.time_processed_ns e.time_processed_ns,
     cur.num_produced_rows + e.num_produced_rows,
     cur.num_iterations + e.num_iterations,
     cur.concurrency + e.concurrency⟩

/-- The loop of `addRemoteExecutionSummaries` over an inited slot (lines
93-124).  Returns the updated map together with the executor ids that were
warned about (the `LOG_FMT_WARNING` at line 100), in emission order. -/
def mergeEntries (is_streaming_call : Bool) :
    List SummaryEntry → SummaryMap → SummaryMap × List String
  | [], m => (m, [])
  | e :: rest, m =>
    match e.executor_id with
    | none => mergeEntries is_streaming_call rest m
    | some id =>
      match m id with
      | none =>
        let p := mergeEntries is_streaming_call rest m
        (p.1, id :: p.2)
      | some cur =>
        mergeEntries is_streaming_call rest
          (updateMap m id (mergeSummary is_streaming_call cur e))

/-- `addRemoteExecutionSummaries` (lines 83-125): early return on an empty
summary list, delegate to init when the slot is not yet inited, otherwise run
the merge loop.  The second component records the warnings emitted. -/
def addRemoteExecutionSummaries (resp : SelectResponse) (slot : Slot)
    (is_streaming_call : Bool) : Slot × List String :=
  if resp.execution_summaries.isEmpty then (slot, [])
  else if slot.inited = false then (initRemoteExecutionSummaries resp slot, [])
  else
    let p := mergeEntries is_streaming_call resp.execution_summaries slot.map
    (⟨slot.inited, p.1⟩, p.2)

/-- The executor ids present in a response, in order (entries without an id
contribute nothing, exactly as both loops skip them). -/
def respIds (resp : SelectResponse) : List String :=
  resp.execution_summaries.filterMap (fun e => e.executor_id)

/-- First entry of a response carrying the given executor id. -/
def findEntry (k : String) (resp : SelectResponse) : Option SummaryEntry :=
  resp.execution_summaries.find? (fun e => e.executor_id == some k)

def emptySummaryMap : SummaryMap := fun _ => none

def defaultSlot : Slot := ⟨false, emptySummaryMap⟩

/-- A decoded row block.  The adapter never inspects a block's contents, only
moves it through the queue; `rows` is the only attribute the claims need. -/
structure Block where
  rows : Nat
deriving Repr, DecidableEq

/-- `DecodeDetail` of a fetch result: row count and packet byte count. -/
structure DecodeDetail where
  rows : Nat
  packet_bytes : Nat
deriving Repr, DecidableEq

/-- Modelled from the spec: `ConnectionProfileInfo`
(`Flash/Statistics/ConnectionProfileInfo.h` is outside this file) is a
per-source packet count and cumulative byte count, zero-initialized on
construction ("per-source packet/byte counters", entries "keep their initial
zero values"). -/
structure ConnectionProfileInfo where
  packets : Nat
  bytes : Nat
deriving Repr, DecidableEq

/-- One return value of `remote_reader->nextResult(block_queue, sample_block,
stream_id)`.  `blocks` are the blocks the reader pushes into the adapter's
queue during the call (the call mutates `block_queue` by reference); the
remaining fields are the ones `fetchRemoteResult` reads. -/
structure RemoteResult where
  meet_error : Bool
  error_msg : String
  eof : Bool
  resp : Option SelectResponse
  call_index : Nat
  decode_detail : DecodeDetail
  blocks : List Block
  req_info : String
deriving Repr, DecidableEq

/-- The mutable state of a `TiRemoteBlockInputStream`: `block_queue`,
`execution_summaries_inited`/`execution_summaries` (paired per slot),
`connection_profile_infos` and `total_rows`. -/
structure AdapterState where
  block_queue : List Block
  execution_summaries : List Slot
  connection_profile_infos : List ConnectionProfileInfo
  total_rows : Nat

/-- The two `throw Exception(...)` sites of `fetchRemoteResult`, named after
the spec's error taxonomy: line 133 (transport failure) and line 140
(response-embedded error). -/
inductive FetchError where
  | remoteReadError (msg : String)
  | remoteResponseError (msg : String)
deriving Repr, DecidableEq

/-- Outcome of one `fetchRemoteResult()` call: `ok`/`eofReached` are the
`true`/`false` returns, `err` an exception, and `exhausted` the modelling
artifact of the reader script running out (never reached in the claims). -/
inductive FetchOutcome where
  | ok (st : AdapterState) (rest : List RemoteResult)
  | eofReached (st : AdapterState) (rest : List RemoteResult)
  | err (e : FetchError) (st : AdapterState) (rest : List RemoteResult)
  | exhausted (st : AdapterState)

/-- `result.resp != nullptr && result.resp->has_error()` (line 137). -/
def respHasError (r : RemoteResult) : Bool :=
  match r.resp with
  | some resp => resp.has_error
  | none => false

/-- `result.resp->error().DebugString()` (line 140). -/
def respErrorMsg (r : RemoteResult) : String :=
  match r.resp with
  | some resp => resp.error_msg
  | none => ""

/-- Lines 143-153: when a response is present, merge its summaries into slot
`result.call_index` (streaming reader) or slot 0 (batch reader), with the
matching `is_streaming_call` argument.  Out-of-range slot indices leave the
table unchanged, as `List.set` does. -/
def applySummaries (stream : Bool) (r : RemoteResult) (st : AdapterState) :
    AdapterState :=
  match r.resp with
  | none => st
  | some resp =>
    let idx := if stream then r.call_index else 0
    let slot := st.execution_summaries.getD idx defaultSlot
    { st with
      execution_summaries :=
        st.execution_summaries.set idx
          (addRemoteExecutionSummaries resp slot stream).1 }

/-- `++connection_profile_infos[index].packets;
connection_profile_infos[index].bytes += decode_detail.packet_bytes`
(lines 161-162). -/
def bumpProfile (info : ConnectionProfileInfo) (d : DecodeDetail) :
    ConnectionProfileInfo :=
  ⟨info.packets + 1, info.bytes + d.packet_bytes⟩

/-- Lines 143-170 of `fetchRemoteResult`: summary merge, connection-profile
update at `call_index` (streaming) or 0 (batch), and `total_rows +=
decode_detail.rows`. -/
def processPayload (stream : Bool) (r : RemoteResult) (st : AdapterState) :
    AdapterState :=
  let st2 := applySummaries stream r st
  let idx := if stream then r.call_index else 0
  { st2 with
    connection_profile_infos :=
      st2.connection_profile_infos.set idx
        (bumpProfile (st2.connection_profile_infos.getD idx ⟨0, 0⟩)
          r.decode_detail),
    total_rows := st2.total_rows + r.decode_detail.rows }

/-- The queue mutation performed inside `remote_reader->nextResult`: the
decoded blocks are appended to `block_queue`. -/
def enqueueBlocks (r : RemoteResult) (st : AdapterState) : AdapterState :=
  { st with block_queue := st.block_queue ++ r.blocks }

/-- `fetchRemoteResult()` (lines 127-174) against a reader script.  The
`rows == 0` branch is the self-recursive call `return fetchRemoteResult();`
at line 172. -/
def fetchRemoteResult (stream : Bool) :
    List RemoteResult → AdapterState → FetchOutcome
  | [], st => .exhausted st
  | r :: rest, st =>
    let st1 := enqueueBlocks r st
    if r.meet_error then .err (.remoteReadError r.error_msg) st1 rest
    else if r.eof then .eofReached st1 rest
    else if respHasError r then .err (.remoteResponseError (respErrorMsg r)) st1 rest
    else
      let st2 := processPayload stream r st1
      if r.decode_detail.rows = 0 then fetchRemoteResult stream rest st2
      else .ok st2 rest

/-- The nesting depth of `fetchRemoteResult` activations a single outer call
produces: each `return fetchRemoteResult();` at line 172 adds a stack frame. -/
def fetchCallDepth (stream : Bool) :
    List RemoteResult → AdapterState → Nat
  | [], _ => 1
  | r :: rest, st =>
    let st1 := enqueueBlocks r st
    if r.meet_error then 1
    else if r.eof then 1
    else if respHasError r then 1
    else
      let st2 := processPayload stream r st1
      if r.decode_detail.rows = 0 then 1 + fetchCallDepth stream rest st2
      else 1

/-- Outcome of one `readImpl()` call; `frontOfEmpty` marks the undefined
`block_queue.front()` on an empty queue (unreachable when the reader script is
well formed). -/
inductive ReadOutcome where
  | block (b : Block) (st : AdapterState) (rest : List RemoteResult)
  | noMoreBlocks (st : AdapterState) (rest : List RemoteResult)
  | err (e : FetchError) (st : AdapterState) (rest : List RemoteResult)
  | exhausted (st : AdapterState)
  | frontOfEmpty (st : AdapterState) (rest : List RemoteResult)

/-- `readImpl()` (lines 204-215): serve from the queue, refilling it through
`fetchRemoteResult` when empty; a `false` refill returns the empty block. -/
def readImpl (stream : Bool) (script : List RemoteResult)
    (st : AdapterState) : ReadOutcome :=
  match st.block_queue with
  | b :: bs => .block b { st with block_queue := bs } script
  | [] =>
    match fetchRemoteResult stream script st with
    | .ok st' rest =>
      match st'.block_queue with
      | b :: bs => .block b { st' with block_queue := bs } rest
      | [] => .frontOfEmpty st' rest
    | .eofReached st' rest => .noMoreBlocks st' rest
    | .err e st' rest => .err e st' rest
    | .exhausted st' => .exhausted st'

/-- The constructor (lines 177-193): empty queue, `source_num` slots all with
`inited = false` and empty maps, `source_num` default `ConnectionProfileInfo`s,
`total_rows = 0`. -/
def initialState (source_num : Nat) : AdapterState :=
  { block_queue := [],
    execution_summaries := List.replicate source_num defaultSlot,
    connection_profile_infos := List.replicate source_num ⟨0, 0⟩,
    total_rows := 0 }

/-- `readSuffixImpl` (lines 241-245) logs `total_rows`; this is the number the
log line reports. -/
def readSuffixImpl (st : AdapterState) : Nat :=
  st.total_rows

/-- The state every fetch outcome carries. -/
def FetchOutcome.state : FetchOutcome → AdapterState
  | .ok st _ => st
  | .eofReached st _ => st
  | .err _ st _ => st
  | .exhausted st => st

/-- Folding the whole batch-mode summary stream into one slot: each response
goes through `addRemoteExecutionSummaries(resp, 0, false)` in arrival order. -/
def mergeBatchAll (rs : List SelectResponse) (slot : Slot) : Slot :=
  rs.foldl (fun s r => (addRemoteExecutionSummaries r s false).1) slot

/-- A fetch result the `rows == 0` branch skips over: no transport error, not
end-of-stream, no response-embedded error, zero decoded rows and hence no
decoded blocks. -/
def ZeroSkippable (z : RemoteResult) : Prop :=
  z.meet_error = false ∧ z.eof = false ∧ respHasError z = false ∧
    z.decode_detail.rows = 0 ∧ z.blocks = []

instance (z : RemoteResult) : Decidable (ZeroSkippable z) := by
  unfold ZeroSkippable; infer_instance

/-- The accumulated state effect of the zero-row results a single
`fetchRemoteResult` call skips: each one is enqueued (a no-op, it carries no
blocks) and payload-processed, then the loop continues. -/
def skipZeros (stream : Bool) (zs : List RemoteResult) (st : AdapterState) :
    AdapterState :=
  zs.foldl (fun s z => processPayload stream z (enqueueBlocks z s)) st

/-- The per-report contribution of operator `k` to the aggregated
`time_processed_ns` (0 when the report does not mention `k`). -/
def timeAt (k : String) (r : SelectResponse) : Nat :=
  ((findEntry k r).map (fun e => e.time_processed_ns)).getD 0

def rowsAt (k : String) (r : SelectResponse) : Nat :=
  ((findEntry k r).map (fun e => e.num_produced_rows)).getD 0

def itersAt (k : String) (r : SelectResponse) : Nat :=
  ((findEntry k r).map (fun e => e.num_iterations)).getD 0

def concAt (k : String) (r : SelectResponse) : Nat :=
  ((findEntry k r).map (fun e => e.concurrency)).getD 0

def natMaxList (l : List Nat) : Nat :=
  l.foldr max 0

/- Concrete fixtures used by witnesses and counterexamples. -/

def respOpA : SelectResponse := ⟨false, "", [⟨some "opA", 1, 1, 1, 1⟩]⟩

def respOpB : SelectResponse := ⟨false, "", [⟨some "opB", 2, 2, 2, 2⟩]⟩

/-- One batch contributor of the spec scenario: `{opA: rows=5, time=30}`. -/
def respScenario : SelectResponse := ⟨false, "", [⟨some "opA", 30, 5, 1, 1⟩]⟩

def publishedSlotA : Slot :=
  ⟨true, updateMap emptySummaryMap "opA" ⟨1, 1, 1, 1⟩⟩

/-- A data-free fetch result with zero decoded rows. -/
def zeroRowResult : RemoteResult :=
  ⟨false, "", false, none, 0, ⟨0, 0⟩, [], "zero"⟩

/-- An end-of-stream fetch result. -/
def eofResult : RemoteResult :=
  ⟨false, "", true, none, 0, ⟨0, 0⟩, [], "eof"⟩

/-- A transport-failure fetch result. -/
def errorResult : RemoteResult :=
  ⟨true, "connection reset by peer", false, none, 0, ⟨0, 0⟩, [], "err"⟩

/-- A well-formed data result: five rows in one block, scenario response. -/
def dataResult : RemoteResult :=
  ⟨false, "", false, some respScenario, 0, ⟨5, 100⟩, [⟨5⟩], "data"⟩

/-- A streaming data result addressed to connection 1, reporting `opA`. -/
def streamResult : RemoteResult :=
  ⟨false, "", false, some respOpA, 1, ⟨5, 100⟩, [⟨5⟩], "stream"⟩

def twoSourceState : AdapterState :=
  { block_queue := [],
    execution_summaries := [publishedSlotA, publishedSlotA],
    connection_profile_infos := [⟨0, 0⟩, ⟨0, 0⟩],
    total_rows := 0 }

/-! ## Basic facts about the merge loops -/

theorem updateMap_self (m : SummaryMap) (id : String) (v : ExecutionSummary) :
    updateMap m id v id = some v := by
  simp [updateMap]

theorem updateMap_ne (m : SummaryMap) (id k : String) (v : ExecutionSummary)
    (h : k ≠ id) : updateMap m id v k = m k := by
  simp [updateMap, h]

/-- The post-publish merge loop never creates or removes a key: the presence
bit of every key is exactly what it was before. -/
theorem mergeEntries_isSome (b : Bool) (entries : List SummaryEntry) :
    ∀ (m : SummaryMap) (j : String),
      ((mergeEntries b entries m).1 j).isSome = (m j).isSome := by
  induction entries with
  | nil => intro m j; rfl
  | cons e rest ih =>
    intro m j
    match he : e.executor_id with
    | none => simp only [mergeEntries, he]; exact ih m j
    | some id =>
      match hm : m id with
      | none => simp only [mergeEntries, he, hm]; exact ih m j
      | some cur =>
        simp only [mergeEntries, he, hm]
        rw [ih]
        by_cases hj : j = id
        · subst hj; rw [updateMap_self, hm]; rfl
        · rw [updateMap_ne _ _ _ _ hj]

theorem mergeEntries_none (b : Bool) (entries : List SummaryEntry)
    (m : SummaryMap) (k : String) (h : m k = none) :
    (mergeEntries b entries m).1 k = none := by
  have := mergeEntries_isSome b entries m k
  rw [h] at this
  simpa using this

/-- Keys a response does not mention are untouched by the merge loop. -/
theorem mergeEntries_notMem (b : Bool) (entries : List SummaryEntry) :
    ∀ (m : SummaryMap) (k : String),
      k ∉ entries.filterMap (fun e => e.executor_id) →
      (mergeEntries b entries m).1 k = m k := by
  induction entries with
  | nil => intro m k _; rfl
  | cons e rest ih =>
    intro m k hk
    rw [List.filterMap_cons] at hk
    match he : e.executor_id with
    | none =>
      rw [he] at hk
      simp only [mergeEntries, he]
      exact ih m k hk
    | some id =>
      rw [he] at hk
      simp only [List.mem_cons, not_or] at hk
      obtain ⟨hne, hrest⟩ := hk
      match hm : m id with
      | none => simp only [mergeEntries, he, hm]; exact ih m k hrest
      | some cur =>
        simp only [mergeEntries, he, hm]
        rw [ih _ _ hrest, updateMap_ne _ _ _ _ hne]

/-- A key that is absent from the map is warned about exactly as often as the
response mentions it. -/
theorem mergeEntries_warn_count (b : Bool) (entries : List SummaryEntry) :
    ∀ (m : SummaryMap) (k : String), m k = none →
      ((mergeEntries b entries m).2).count k
        = (entries.filterMap (fun e => e.executor_id)).count k := by
  induction entries with
  | nil => intro m k _; rfl
  | cons e rest ih =>
    intro m k hk
    rw [List.filterMap_cons]
    match he : e.executor_id with
    | none => simp only [mergeEntries, he]; exact ih m k hk
    | some id =>
      match hm : m id with
      | none =>
        simp only [mergeEntries, he, hm]
        rw [List.count_cons, List.count_cons, ih m k hk]
      | some cur =>
        have hne : id ≠ k := by
          intro h; rw [h, hk] at hm; exact Option.noConfusion hm
        simp only [mergeEntries, he, hm]
        rw [List.count_cons]
        have hupd : updateMap m id (mergeSummary b cur e) k = none := by
          rw [updateMap_ne _ _ _ _ (fun h => hne h.symm), hk]
        rw [ih _ _ hupd]
        simp [hne]

/-- Bridge between list membership of an executor id and `find?` success. -/
theorem mem_filterMap_iff_find?_isSome (entries : List SummaryEntry) (k : String) :
    k ∈ entries.filterMap (fun e => e.executor_id)
      ↔ (entries.find? (fun e => e.executor_id == some k)).isSome := by
  rw [List.find?_isSome, List.mem_filterMap]
  constructor
  · rintro ⟨e, he, hid⟩; exact ⟨e, he, by simp [hid]⟩
  · rintro ⟨e, he, hid⟩; exact ⟨e, he, by simpa using hid⟩

/-- Pointwise description of the post-publish merge loop, provided the
response lists every executor id at most once: a key found in both response
and map is merged, everything else keeps its old value. -/
theorem mergeEntries_apply (b : Bool) (entries : List SummaryEntry) :
    ∀ (m : SummaryMap) (k : String),
      (entries.filterMap (fun e => e.executor_id)).Nodup →
      (mergeEntries b entries m).1 k =
        match entries.find? (fun e => e.executor_id == some k), m k with
        | some e, some cur => some (mergeSummary b cur e)
        | _, _ => m k := by
  induction entries with
  | nil =>
    intro m k _
    rfl
  | cons e rest ih =>
    intro m k hnd
    rw [List.filterMap_cons] at hnd
    match he : e.executor_id with
    | none =>
      rw [he] at hnd
      have hfind : (e :: rest).find? (fun x => x.executor_id == some k)
          = rest.find? (fun x => x.executor_id == some k) := by
        rw [List.find?_cons_of_neg]
        simp [he]
      rw [hfind]
      simp only [mergeEntries, he]
      exact ih m k hnd
    | some id =>
      rw [he] at hnd
      rw [List.nodup_cons] at hnd
      obtain ⟨hid_notin, hnd_rest⟩ := hnd
      by_cases hk : id = k
      · subst hk
        have hfind : (e :: rest).find? (fun x => x.executor_id == some id)
            = some e := by
          rw [List.find?_cons_of_pos]
          simp [he]
        rw [hfind]
        match hm : m id with
        | none =>
          simp only [mergeEntries, he, hm]
          have : (mergeEntries b rest m).1 id = none :=
            mergeEntries_none b rest m id hm
          rw [this]
        | some cur =>
          simp only [mergeEntries, he, hm]
          rw [mergeEntries_notMem b rest _ id hid_notin, updateMap_self]
      · have hfind : (e :: rest).find? (fun x => x.executor_id == some k)
            = rest.find? (fun x => x.executor_id == some k) := by
          rw [List.find?_cons_of_neg]
          simp [he, hk]
        rw [hfind]
        match hm : m id with
        | none => simp only [mergeEntries, he, hm]; exact ih m k hnd_rest
        | some cur =>
          simp only [mergeEntries, he, hm]
          rw [ih _ k hnd_rest,
            updateMap_ne _ _ _ _ (fun h => hk (h.symm : id = k))]

/-- Keys a response does not mention are untouched by the init loop. -/
theorem initEntries_notMem (entries : List SummaryEntry) :
    ∀ (m : SummaryMap) (k : String),
      k ∉ entries.filterMap (fun e => e.executor_id) →
      initEntries entries m k = m k := by
  induction entries with
  | nil => intro m k _; rfl
  | cons e rest ih =>
    intro m k hk
    rw [List.filterMap_cons] at hk
    match he : e.executor_id with
    | none =>
      rw [he] at hk
      simp only [initEntries, he]
      exact ih m k hk
    | some id =>
      rw [he] at hk
      simp only [List.mem_cons, not_or] at hk
      obtain ⟨hne, hrest⟩ := hk
      simp only [initEntries, he]
      rw [ih _ _ hrest, updateMap_ne _ _ _ _ hne]

/-- Pointwise description of the init loop for a response that lists every
executor id at most once: every mentioned key gets the raw reported values,
every other key keeps its old value. -/
theorem initEntries_apply (entries : List SummaryEntry) :
    ∀ (m : SummaryMap) (k : String),
      (entries.filterMap (fun e => e.executor_id)).Nodup →
      initEntries entries m k =
        match entries.find? (fun e => e.executor_id == some k) with
        | some e => some (entryVals e)
        | none => m k := by
  induction entries with
  | nil => intro m k _; rfl
  | cons e rest ih =>
    intro m k hnd
    rw [List.filterMap_cons] at hnd
    match he : e.executor_id with
    | none =>
      rw [he] at hnd
      have hfind : (e :: rest).find? (fun x => x.executor_id == some k)
          = rest.find? (fun x => x.executor_id == some k) := by
        rw [List.find?_cons_of_neg]; simp [he]
      rw [hfind]
      simp only [initEntries, he]
      exact ih m k hnd
    | some id =>
      rw [he] at hnd
      rw [List.nodup_cons] at hnd
      obtain ⟨hid_notin, hnd_rest⟩ := hnd
      by_cases hk : id = k
      · subst hk
        have hfind : (e :: rest).find? (fun x => x.executor_id == some id)
            = some e := by
          rw [List.find?_cons_of_pos]; simp [he]
        rw [hfind]
        simp only [initEntries, he]
        rw [initEntries_notMem rest _ id hid_notin, updateMap_self]
      · have hfind : (e :: rest).find? (fun x => x.executor_id == some k)
            = rest.find? (fun x => x.executor_id == some k) := by
          rw [List.find?_cons_of_neg]; simp [he, hk]
        rw [hfind]
        simp only [initEntries, he]
        rw [ih _ k hnd_rest,
          updateMap_ne _ _ _ _ (fun h => hk (h.symm : id = k))]

/-! ## Facts about `addRemoteExecutionSummaries` -/

/-- An inited slot stays inited through any further merge. -/
theorem add_inited_of_inited (resp : SelectResponse) (slot : Slot) (b : Bool)
    (h : slot.inited = true) :
    ((addRemoteExecutionSummaries resp slot b).1).inited = true := by
  unfold addRemoteExecutionSummaries
  by_cases he : resp.execution_summaries.isEmpty
  · simp [he, h]
  · simp [he, h]

/-- No merge into an inited slot changes the presence of any key. -/
theorem add_isSome_of_inited (resp : SelectResponse) (slot : Slot) (b : Bool)
    (h : slot.inited = true) (k : String) :
    (((addRemoteExecutionSummaries resp slot b).1).map k).isSome
      = (slot.map k).isSome := by
  unfold addRemoteExecutionSummaries
  by_cases he : resp.execution_summaries.isEmpty
  · simp [he]
  · simp only [he, h, Bool.true_eq_false, if_false, Bool.false_eq_true]
    exact mergeEntries_isSome b resp.execution_summaries slot.map k

/-- Pointwise result of a merge into an inited slot (duplicate-free ids). -/
theorem add_apply_of_inited (resp : SelectResponse) (slot : Slot) (b : Bool)
    (h : slot.inited = true) (hnd : (respIds resp).Nodup) (k : String) :
    ((addRemoteExecutionSummaries resp slot b).1).map k =
      match findEntry k resp, slot.map k with
      | some e, some cur => some (mergeSummary b cur e)
      | _, _ => slot.map k := by
  unfold addRemoteExecutionSummaries
  by_cases he : resp.execution_summaries.isEmpty
  · have : resp.execution_summaries = [] := by
      cases hx : resp.execution_summaries with
      | nil => rfl
      | cons a l => rw [hx] at he; simp at he
    rw [findEntry, this]
    simp [he]
  · simp only [he, h, Bool.true_eq_false, if_false, Bool.false_eq_true]
    exact mergeEntries_apply b resp.execution_summaries slot.map k hnd

/-- The warning stream of a merge into an inited slot mentions an absent key
exactly as often as the response does. -/
theorem add_warn_count_of_inited (resp : SelectResponse) (slot : Slot) (b : Bool)
    (h : slot.inited = true) (k : String) (habs : slot.map k = none)
    (hne : resp.execution_summaries.isEmpty = false) :
    ((addRemoteExecutionSummaries resp slot b).2).count k
      = (respIds resp).count k := by
  unfold addRemoteExecutionSummaries
  simp only [hne, h, Bool.true_eq_false, if_false, Bool.false_eq_true]
  exact mergeEntries_warn_count b resp.execution_summaries slot.map k habs

/-- First merge into a not-yet-inited slot: init takes the branch. -/
theorem add_uninited (resp : SelectResponse) (slot : Slot) (b : Bool)
    (h : slot.inited = false) (hne : resp.execution_summaries.isEmpty = false) :
    (addRemoteExecutionSummaries resp slot b).1
      = ⟨true, initEntries resp.execution_summaries slot.map⟩ := by
  unfold addRemoteExecutionSummaries
  simp [hne, h, initRemoteExecutionSummaries]

/-! ## Frame facts about the fetch-loop state transformers -/

theorem enqueueBlocks_summaries (r : RemoteResult) (st : AdapterState) :
    (enqueueBlocks r st).execution_summaries = st.execution_summaries := rfl

theorem enqueueBlocks_infos (r : RemoteResult) (st : AdapterState) :
    (enqueueBlocks r st).connection_profile_infos
      = st.connection_profile_infos := rfl

theorem enqueueBlocks_total (r : RemoteResult) (st : AdapterState) :
    (enqueueBlocks r st).total_rows = st.total_rows := rfl

theorem enqueueBlocks_nil (r : RemoteResult) (st : AdapterState)
    (h : r.blocks = []) : enqueueBlocks r st = st := by
  unfold enqueueBlocks
  rw [h, List.append_nil]

theorem applySummaries_queue (stream : Bool) (r : RemoteResult)
    (st : AdapterState) :
    (applySummaries stream r st).block_queue = st.block_queue := by
  unfold applySummaries
  cases r.resp <;> rfl

theorem applySummaries_infos (stream : Bool) (r : RemoteResult)
    (st : AdapterState) :
    (applySummaries stream r st).connection_profile_infos
      = st.connection_profile_infos := by
  unfold applySummaries
  cases r.resp <;> rfl

theorem applySummaries_total (stream : Bool) (r : RemoteResult)
    (st : AdapterState) :
    (applySummaries stream r st).total_rows = st.total_rows := by
  unfold applySummaries
  cases r.resp <;> rfl

theorem processPayload_queue (stream : Bool) (r : RemoteResult)
    (st : AdapterState) :
    (processPayload stream r st).block_queue = st.block_queue := by
  unfold processPayload
  exact applySummaries_queue stream r st

theorem processPayload_total (stream : Bool) (r : RemoteResult)
    (st : AdapterState) :
    (processPayload stream r st).total_rows
      = st.total_rows + r.decode_detail.rows := by
  simp [processPayload, applySummaries_total]

theorem processPayload_summaries (stream : Bool) (r : RemoteResult)
    (st : AdapterState) :
    (processPayload stream r st).execution_summaries
      = (applySummaries stream r st).execution_summaries := rfl

theorem processPayload_infos (stream : Bool) (r : RemoteResult)
    (st : AdapterState) :
    (processPayload stream r st).connection_profile_infos
      = st.connection_profile_infos.set (if stream then r.call_index else 0)
          (bumpProfile
            (st.connection_profile_infos.getD
              (if stream then r.call_index else 0) ⟨0, 0⟩)
            r.decode_detail) := by
  simp [processPayload, applySummaries_infos]

/-- Summary-table shape of one processed payload carrying a response. -/
theorem processPayload_summaries_of_resp (stream : Bool) (r : RemoteResult)
    (st : AdapterState) (resp : SelectResponse) (h : r.resp = some resp) :
    (processPayload stream r st).execution_summaries
      = st.execution_summaries.set (if stream then r.call_index else 0)
          (addRemoteExecutionSummaries resp
            (st.execution_summaries.getD
              (if stream then r.call_index else 0) defaultSlot) stream).1 := by
  simp [processPayload, applySummaries, h]

/-! ## Unfolding the fetch loop one result at a time -/

theorem fetch_cons_error (stream : Bool) (r : RemoteResult)
    (rest : List RemoteResult) (st : AdapterState) (hme : r.meet_error = true) :
    fetchRemoteResult stream (r :: rest) st
      = .err (.remoteReadError r.error_msg) (enqueueBlocks r st) rest := by
  simp [fetchRemoteResult, hme]

theorem fetch_cons_eof (stream : Bool) (r : RemoteResult)
    (rest : List RemoteResult) (st : AdapterState)
    (hme : r.meet_error = false) (heof : r.eof = true) :
    fetchRemoteResult stream (r :: rest) st
      = .eofReached (enqueueBlocks r st) rest := by
  simp [fetchRemoteResult, hme, heof]

theorem fetch_cons_respError (stream : Bool) (r : RemoteResult)
    (rest : List RemoteResult) (st : AdapterState)
    (hme : r.meet_error = false) (heof : r.eof = false)
    (herr : respHasError r = true) :
    fetchRemoteResult stream (r :: rest) st
      = .err (.remoteResponseError (respErrorMsg r)) (enqueueBlocks r st) rest := by
  simp [fetchRemoteResult, hme, heof, herr]

theorem fetch_cons_data (stream : Bool) (r : RemoteResult)
    (rest : List RemoteResult) (st : AdapterState)
    (hme : r.meet_error = false) (heof : r.eof = false)
    (herr : respHasError r = false) :
    fetchRemoteResult stream (r :: rest) st
      = if r.decode_detail.rows = 0
        then fetchRemoteResult stream rest
          (processPayload stream r (enqueueBlocks r st))
        else .ok (processPayload stream r (enqueueBlocks r st)) rest := by
  simp [fetchRemoteResult, hme, heof, herr]

theorem depth_cons_data (stream : Bool) (r : RemoteResult)
    (rest : List RemoteResult) (st : AdapterState)
    (hme : r.meet_error = false) (heof : r.eof = false)
    (herr : respHasError r = false) :
    fetchCallDepth stream (r :: rest) st
      = if r.decode_detail.rows = 0
        then 1 + fetchCallDepth stream rest
          (processPayload stream r (enqueueBlocks r st))
        else 1 := by
  simp [fetchCallDepth, hme, heof, herr]

/-! ## The zero-row skip -/

theorem skipZeros_nil (stream : Bool) (st : AdapterState) :
    skipZeros stream [] st = st := rfl

theorem skipZeros_cons (stream : Bool) (z : RemoteResult)
    (zs : List RemoteResult) (st : AdapterState) :
    skipZeros stream (z :: zs) st
      = skipZeros stream zs (processPayload stream z (enqueueBlocks z st)) := rfl

/-- A run of zero-row results ahead of the script is absorbed into the state
by the retry, and the fetch outcome is the one the remaining script
produces. -/
theorem fetch_skipZeros (stream : Bool) (zs : List RemoteResult) :
    ∀ (script : List RemoteResult) (st : AdapterState),
      (∀ z ∈ zs, ZeroSkippable z) →
      fetchRemoteResult stream (zs ++ script) st
        = fetchRemoteResult stream script (skipZeros stream zs st) := by
  induction zs with
  | nil => intro script st _; rfl
  | cons z zs ih =>
    intro script st hz
    obtain ⟨hme, heof, herr, hrows, -⟩ := hz z (List.mem_cons_self z zs)
    rw [List.cons_append, fetch_cons_data stream z (zs ++ script) st hme heof herr,
      if_pos hrows, skipZeros_cons]
    exact ih script _ (fun x hx => hz x (List.mem_cons_of_mem z hx))

/-- Each skipped zero-row result adds one nested activation of
`fetchRemoteResult` (the self-call at line 172). -/
theorem depth_skipZeros (stream : Bool) (zs : List RemoteResult) :
    ∀ (script : List RemoteResult) (st : AdapterState),
      (∀ z ∈ zs, ZeroSkippable z) →
      fetchCallDepth stream (zs ++ script) st
        = zs.length + fetchCallDepth stream script (skipZeros stream zs st) := by
  induction zs with
  | nil => intro script st _; simp [skipZeros_nil]
  | cons z zs ih =>
    intro script st hz
    obtain ⟨hme, heof, herr, hrows, -⟩ := hz z (List.mem_cons_self z zs)
    rw [List.cons_append, depth_cons_data stream z (zs ++ script) st hme heof herr,
      if_pos hrows, skipZeros_cons,
      ih script _ (fun x hx => hz x (List.mem_cons_of_mem z hx))]
    simp [List.length_cons]
    omega

/-- Skipping zero-row results never touches the block queue: they carry no
blocks and payload processing leaves the queue alone. -/
theorem skipZeros_queue (stream : Bool) (zs : List RemoteResult) :
    ∀ (st : AdapterState), (∀ z ∈ zs, z.blocks = []) →
      (skipZeros stream zs st).block_queue = st.block_queue := by
  induction zs with
  | nil => intro st _; rfl
  | cons z zs ih =>
    intro st hz
    rw [skipZeros_cons, ih _ (fun x hx => hz x (List.mem_cons_of_mem z hx)),
      processPayload_queue]
    unfold enqueueBlocks
    rw [hz z (List.mem_cons_self z zs), List.append_nil]

/-- `readImpl` hands back the empty "no more blocks" result exactly when the
queue was empty and the refill reported end-of-stream. -/
theorem readImpl_noMoreBlocks_iff (stream : Bool) (script : List RemoteResult)
    (st : AdapterState) (st' : AdapterState) (rest : List RemoteResult) :
    readImpl stream script st = .noMoreBlocks st' rest ↔
      (st.block_queue = [] ∧
        fetchRemoteResult stream script st = .eofReached st' rest) := by
  cases hq : st.block_queue with
  | cons b bs => simp [readImpl, hq]
  | nil =>
    cases hf : fetchRemoteResult stream script st with
    | ok st2 r2 =>
      cases hbq : st2.block_queue with
      | nil => simp [readImpl, hq, hf, hbq]
      | cons b bs => simp [readImpl, hq, hf, hbq]
    | eofReached st2 r2 => simp [readImpl, hq, hf]
    | err e st2 r2 => simp [readImpl, hq, hf]
    | exhausted st2 => simp [readImpl, hq, hf]

/-- A successful fetch consumed some nonempty chunk of the script and added
exactly the sum of the chunk's decode row counts to `total_rows`. -/
theorem fetch_ok_total (stream : Bool) :
    ∀ (script : List RemoteResult) (st st' : AdapterState)
      (rest : List RemoteResult),
      fetchRemoteResult stream script st = .ok st' rest →
      ∃ consumed, script = consumed ++ rest ∧
        st'.total_rows = st.total_rows
          + (consumed.map (fun r => r.decode_detail.rows)).sum := by
  intro script
  induction script with
  | nil => intro st st' rest h; exact absurd h (by simp [fetchRemoteResult])
  | cons r rest0 ih =>
    intro st st' rest h
    by_cases hme : r.meet_error = true
    · rw [fetch_cons_error stream r rest0 st hme] at h
      exact absurd h (by simp)
    · rw [Bool.not_eq_true] at hme
      by_cases heof : r.eof = true
      · rw [fetch_cons_eof stream r rest0 st hme heof] at h
        exact absurd h (by simp)
      · rw [Bool.not_eq_true] at heof
        by_cases herr : respHasError r = true
        · rw [fetch_cons_respError stream r rest0 st hme heof herr] at h
          exact absurd h (by simp)
        · rw [Bool.not_eq_true] at herr
          rw [fetch_cons_data stream r rest0 st hme heof herr] at h
          by_cases hrows : r.decode_detail.rows = 0
          · rw [if_pos hrows] at h
            obtain ⟨c0, hc, htot⟩ := ih _ _ _ h
            refine ⟨r :: c0, by rw [List.cons_append, hc], ?_⟩
            rw [htot, processPayload_total, enqueueBlocks_total]
            simp [List.sum_cons]
            omega
          · rw [if_neg hrows] at h
            injection h with h1 h2
            refine ⟨[r], by rw [h2]; rfl, ?_⟩
            rw [← h1, processPayload_total, enqueueBlocks_total]
            simp

/-- A fetch ending in end-of-stream consumed some chunk of zero-or-more
results followed by the end-of-stream result; `total_rows` grew by the sum of
the chunk's decode row counts (the terminal result is returned before the
counter update). -/
theorem fetch_eof_total (stream : Bool) :
    ∀ (script : List RemoteResult) (st st' : AdapterState)
      (rest : List RemoteResult),
      fetchRemoteResult stream script st = .eofReached st' rest →
      ∃ consumed t, script = consumed ++ t :: rest ∧ t.eof = true ∧
        st'.total_rows = st.total_rows
          + (consumed.map (fun r => r.decode_detail.rows)).sum := by
  intro script
  induction script with
  | nil => intro st st' rest h; exact absurd h (by simp [fetchRemoteResult])
  | cons r rest0 ih =>
    intro st st' rest h
    by_cases hme : r.meet_error = true
    · rw [fetch_cons_error stream r rest0 st hme] at h
      exact absurd h (by simp)
    · rw [Bool.not_eq_true] at hme
      by_cases heof : r.eof = true
      · rw [fetch_cons_eof stream r rest0 st hme heof] at h
        injection h with h1 h2
        refine ⟨[], r, by rw [h2]; rfl, heof, ?_⟩
        rw [← h1, enqueueBlocks_total]
        simp
      · rw [Bool.not_eq_true] at heof
        by_cases herr : respHasError r = true
        · rw [fetch_cons_respError stream r rest0 st hme heof herr] at h
          exact absurd h (by simp)
        · rw [Bool.not_eq_true] at herr
          rw [fetch_cons_data stream r rest0 st hme heof herr] at h
          by_cases hrows : r.decode_detail.rows = 0
          · rw [if_pos hrows] at h
            obtain ⟨c0, t, hc, ht, htot⟩ := ih _ _ _ h
            refine ⟨r :: c0, t, by rw [List.cons_append, hc], ht, ?_⟩
            rw [htot, processPayload_total, enqueueBlocks_total]
            simp [List.sum_cons]
            omega
          · rw [if_neg hrows] at h
            exact absurd h (by simp)

/-- In batch mode every connection-profile update hits index 0, so any other
index is untouched by a whole fetch call, whatever it consumes. -/
theorem fetch_batch_infos_frame :
    ∀ (script : List RemoteResult) (st : AdapterState) (i : Nat), 1 ≤ i →
      ((fetchRemoteResult false script st).state).connection_profile_infos[i]?
        = st.connection_profile_infos[i]? := by
  intro script
  induction script with
  | nil => intro st i _; rfl
  | cons r rest0 ih =>
    intro st i hi
    have hne : i ≠ 0 := by omega
    by_cases hme : r.meet_error = true
    · rw [fetch_cons_error false r rest0 st hme]
      simp [FetchOutcome.state, enqueueBlocks_infos]
    · rw [Bool.not_eq_true] at hme
      by_cases heof : r.eof = true
      · rw [fetch_cons_eof false r rest0 st hme heof]
        simp [FetchOutcome.state, enqueueBlocks_infos]
      · rw [Bool.not_eq_true] at heof
        by_cases herr : respHasError r = true
        · rw [fetch_cons_respError false r rest0 st hme heof herr]
          simp [FetchOutcome.state, enqueueBlocks_infos]
        · rw [Bool.not_eq_true] at herr
          rw [fetch_cons_data false r rest0 st hme heof herr]
          have hstep : ∀ st0 : AdapterState,
              (processPayload false r (enqueueBlocks r st0)).connection_profile_infos[i]?
                = st0.connection_profile_infos[i]? := by
            intro st0
            rw [processPayload_infos]
            simp only [Bool.false_eq_true, if_false]
            rw [List.getElem?_set_ne (fun h => hne h.symm), enqueueBlocks_infos]
          by_cases hrows : r.decode_detail.rows = 0
          · rw [if_pos hrows, ih _ i hi, hstep]
          · rw [if_neg hrows]
            simp only [FetchOutcome.state]
            exact hstep st

/-! ## The batch-mode aggregate as a function of the report multiset -/

theorem mergeBatchAll_nil (slot : Slot) : mergeBatchAll [] slot = slot := rfl

theorem mergeBatchAll_cons (r : SelectResponse) (rs : List SelectResponse)
    (slot : Slot) :
    mergeBatchAll (r :: rs) slot
      = mergeBatchAll rs (addRemoteExecutionSummaries r slot false).1 := rfl

theorem mergeBatchAll_inited (rs : List SelectResponse) :
    ∀ slot : Slot, slot.inited = true → (mergeBatchAll rs slot).inited = true := by
  induction rs with
  | nil => intro slot h; exact h
  | cons r rs ih =>
    intro slot h
    rw [mergeBatchAll_cons]
    exact ih _ (add_inited_of_inited r slot false h)

theorem respIds_mem_nonempty (r : SelectResponse) (k : String)
    (h : k ∈ respIds r) : r.execution_summaries.isEmpty = false := by
  cases hx : r.execution_summaries with
  | nil => rw [respIds, hx] at h; simp at h
  | cons a l => simp

/-- A key no report mentions is untouched by one merge step. -/
theorem add_map_notMem (r : SelectResponse) (slot : Slot) (b : Bool)
    (k : String) (h : k ∉ respIds r) :
    ((addRemoteExecutionSummaries r slot b).1).map k = slot.map k := by
  unfold addRemoteExecutionSummaries
  by_cases he : r.execution_summaries.isEmpty
  · simp [he]
  · by_cases hi : slot.inited = false
    · simp only [he, if_false, hi, if_true]
      exact initEntries_notMem r.execution_summaries slot.map k h
    · simp only [he, if_false, hi]
      exact mergeEntries_notMem b r.execution_summaries slot.map k h

/-- A key no report mentions is untouched by the whole batch fold. -/
theorem mergeBatchAll_absent (rs : List SelectResponse) :
    ∀ (slot : Slot) (k : String), (∀ r ∈ rs, k ∉ respIds r) →
      (mergeBatchAll rs slot).map k = slot.map k := by
  induction rs with
  | nil => intro slot k _; rfl
  | cons r rs ih =>
    intro slot k h
    rw [mergeBatchAll_cons,
      ih _ k (fun x hx => h x (List.mem_cons_of_mem r hx))]
    exact add_map_notMem r slot false k (h r (List.mem_cons_self r rs))

theorem add_inited_mk (r : SelectResponse) (m : SummaryMap) (b : Bool)
    (hne : r.execution_summaries.isEmpty = false) :
    (addRemoteExecutionSummaries r ⟨true, m⟩ b).1
      = ⟨true, (mergeEntries b r.execution_summaries m).1⟩ := by
  unfold addRemoteExecutionSummaries
  simp [hne]

theorem timeAt_of_find (k : String) (r : SelectResponse) (e : SummaryEntry)
    (h : findEntry k r = some e) : timeAt k r = e.time_processed_ns := by
  simp [timeAt, h]

theorem rowsAt_of_find (k : String) (r : SelectResponse) (e : SummaryEntry)
    (h : findEntry k r = some e) : rowsAt k r = e.num_produced_rows := by
  simp [rowsAt, h]

theorem itersAt_of_find (k : String) (r : SelectResponse) (e : SummaryEntry)
    (h : findEntry k r = some e) : itersAt k r = e.num_iterations := by
  simp [itersAt, h]

theorem concAt_of_find (k : String) (r : SelectResponse) (e : SummaryEntry)
    (h : findEntry k r = some e) : concAt k r = e.concurrency := by
  simp [concAt, h]

/-- Folding batch merges over an already-published slot accumulates, per key:
max of the reported times against the current one, and sums of the reported
rows/iterations/concurrency on top of the current ones. -/
theorem mergeBatchAll_fold_apply :
    ∀ (rs : List SelectResponse) (m : SummaryMap) (k : String)
      (cur : ExecutionSummary),
      (∀ r ∈ rs, (respIds r).Nodup ∧ k ∈ respIds r) → m k = some cur →
      (mergeBatchAll rs ⟨true, m⟩).map k =
        some ⟨max cur.time_processed_ns (natMaxList (rs.map (timeAt k))),
              cur.num_produced_rows + (rs.map (rowsAt k)).sum,
              cur.num_iterations + (rs.map (itersAt k)).sum,
              cur.concurrency + (rs.map (concAt k)).sum⟩ := by
  intro rs
  induction rs with
  | nil =>
    intro m k cur _ hm
    rw [mergeBatchAll_nil]
    simp only [List.map_nil, List.sum_nil, Nat.add_zero]
    rw [hm]
    have : natMaxList [] = 0 := rfl
    rw [this, Nat.max_zero]
  | cons r rs ih =>
    intro m k cur h hm
    obtain ⟨hnd, hkin⟩ := h r (List.mem_cons_self r rs)
    have hne : r.execution_summaries.isEmpty = false :=
      respIds_mem_nonempty r k hkin
    have hfind : ∃ e, findEntry k r = some e := by
      have := (mem_filterMap_iff_find?_isSome r.execution_summaries k).mp hkin
      exact Option.isSome_iff_exists.mp this
    obtain ⟨e, hfind⟩ := hfind
    rw [mergeBatchAll_cons, add_inited_mk r m false hne]
    have hm1 : (mergeEntries false r.execution_summaries m).1 k
        = some (mergeSummary false cur e) := by
      rw [mergeEntries_apply false r.execution_summaries m k hnd]
      rw [show r.execution_summaries.find? (fun x => x.executor_id == some k)
        = some e from hfind, hm]
    rw [ih _ k (mergeSummary false cur e)
      (fun x hx => h x (List.mem_cons_of_mem r hx)) hm1]
    rw [List.map_cons, List.map_cons, List.map_cons, List.map_cons,
      List.sum_cons, List.sum_cons, List.sum_cons,
      timeAt_of_find k r e hfind, rowsAt_of_find k r e hfind,
      itersAt_of_find k r e hfind, concAt_of_find k r e hfind]
    have hmax : natMaxList (e.time_processed_ns :: rs.map (timeAt k))
        = max e.time_processed_ns (natMaxList (rs.map (timeAt k))) := rfl
    rw [hmax]
    simp only [mergeSummary, Bool.false_eq_true, if_false]
    rw [Option.some.injEq]
    refine ExecutionSummary.mk.injEq _ _ _ _ _ _ _ _ |>.mpr ?_ |> Eq.symm
    refine ⟨?_, ?_, ?_, ?_⟩
    · exact (Nat.max_assoc _ _ _).symm
    · omega
    · omega
    · omega

/-- When every report lists the key (each at most once), the final aggregate
at that key is the max of all reported times and the plain sums of all
reported rows/iterations/concurrency — a function of the report multiset
only. -/
theorem mergeBatchAll_formula (r : SelectResponse) (rest : List SelectResponse)
    (k : String)
    (h : ∀ x ∈ r :: rest, (respIds x).Nodup ∧ k ∈ respIds x) :
    (mergeBatchAll (r :: rest) defaultSlot).map k =
      some ⟨natMaxList ((r :: rest).map (timeAt k)),
            ((r :: rest).map (rowsAt k)).sum,
            ((r :: rest).map (itersAt k)).sum,
            ((r :: rest).map (concAt k)).sum⟩ := by
  obtain ⟨hnd, hkin⟩ := h r (List.mem_cons_self r rest)
  have hne : r.execution_summaries.isEmpty = false :=
    respIds_mem_nonempty r k hkin
  have hfind : ∃ e, findEntry k r = some e := by
    have := (mem_filterMap_iff_find?_isSome r.execution_summaries k).mp hkin
    exact Option.isSome_iff_exists.mp this
  obtain ⟨e, hfind⟩ := hfind
  rw [mergeBatchAll_cons, add_uninited r defaultSlot false rfl hne]
  have hm1 : initEntries r.execution_summaries defaultSlot.map k
      = some (entryVals e) := by
    rw [initEntries_apply r.execution_summaries defaultSlot.map k hnd,
      show r.execution_summaries.find? (fun x => x.executor_id == some k)
        = some e from hfind]
  rw [mergeBatchAll_fold_apply rest _ k (entryVals e)
    (fun x hx => h x (List.mem_cons_of_mem r hx)) hm1]
  rw [List.map_cons, List.map_cons, List.map_cons, List.map_cons,
    List.sum_cons, List.sum_cons, List.sum_cons,
    timeAt_of_find k r e hfind, rowsAt_of_find k r e hfind,
    itersAt_of_find k r e hfind, concAt_of_find k r e hfind]
  rfl

/-- `natMaxList` is permutation-invariant. -/
theorem natMaxList_perm {l l' : List Nat} (h : l.Perm l') :
    natMaxList l = natMaxList l' := by
  induction h with
  | nil => rfl
  | cons x _ ih =>
    show max x (natMaxList _) = max x (natMaxList _)
    rw [ih]
  | swap x y l =>
    show max y (max x (natMaxList l)) = max x (max y (natMaxList l))
    rw [Nat.max_left_comm]
  | trans _ _ ih1 ih2 => rw [ih1, ih2]

/-! ## Claim theorems -/

/-- C1: once a slot's published (`inited`) flag is true it stays true through
every later `addRemoteExecutionSummaries` call, and such a call never changes
the slot's operator-id key set — only the numeric fields of entries already
present can change. -/
theorem published_slot_flag_and_keyset_stable (resp : SelectResponse)
    (slot : Slot) (b : Bool) (h : slot.inited = true) :
    ((addRemoteExecutionSummaries resp slot b).1).inited = true ∧
    ∀ k, (((addRemoteExecutionSummaries resp slot b).1).map k).isSome
        = (slot.map k).isSome :=
  ⟨add_inited_of_inited resp slot b h,
   fun k => add_isSome_of_inited resp slot b h k⟩

theorem published_slot_flag_and_keyset_stable_witness :
    ((addRemoteExecutionSummaries respOpB publishedSlotA false).1).inited = true ∧
    (((addRemoteExecutionSummaries respOpB publishedSlotA false).1).map "opB").isSome
      = (publishedSlotA.map "opB").isSome ∧
    (((addRemoteExecutionSummaries respOpB publishedSlotA false).1).map "opA").isSome
      = (publishedSlotA.map "opA").isSome := by
  have h := published_slot_flag_and_keyset_stable respOpB publishedSlotA false rfl
  exact ⟨h.1, h.2 "opB", h.2 "opA"⟩

/-- C5: a merge into a published slot drops every reported operator-id absent
from the slot's mapping — the map stays `none` there and no key's presence
changes anywhere — emits exactly one warning for an id reported once, and the
condition is non-fatal: a fetch carrying such a response still returns its
block normally. -/
theorem unknown_executor_dropped_warned_nonfatal (resp : SelectResponse)
    (slot : Slot) (b : Bool) (k : String) (hinit : slot.inited = true)
    (habs : slot.map k = none) (hcount : (respIds resp).count k = 1) :
    ((addRemoteExecutionSummaries resp slot b).1).map k = none ∧
    ((addRemoteExecutionSummaries resp slot b).2).count k = 1 ∧
    (∀ j, (((addRemoteExecutionSummaries resp slot b).1).map j).isSome
        = (slot.map j).isSome) ∧
    (∀ (stream : Bool) (r : RemoteResult) (rest : List RemoteResult)
        (st : AdapterState),
      r.meet_error = false → r.eof = false → respHasError r = false →
      r.decode_detail.rows ≠ 0 →
      fetchRemoteResult stream (r :: rest) st
        = .ok (processPayload stream r (enqueueBlocks r st)) rest) := by
  have hkmem : k ∈ respIds resp := by
    by_contra hn
    rw [List.count_eq_zero_of_not_mem hn] at hcount
    exact absurd hcount (by simp)
  have hne : resp.execution_summaries.isEmpty = false :=
    respIds_mem_nonempty resp k hkmem
  refine ⟨?_, ?_, fun j => add_isSome_of_inited resp slot b hinit j, ?_⟩
  · have := add_isSome_of_inited resp slot b hinit k
    rw [habs] at this
    simpa using this
  · rw [add_warn_count_of_inited resp slot b hinit k habs hne]
    exact hcount
  · intro stream r rest st hme heof herr hrows
    rw [fetch_cons_data stream r rest st hme heof herr, if_neg hrows]

theorem unknown_executor_dropped_warned_nonfatal_witness :
    ((addRemoteExecutionSummaries respOpB publishedSlotA false).1).map "opB" = none ∧
    ((addRemoteExecutionSummaries respOpB publishedSlotA false).2).count "opB" = 1 ∧
    (((addRemoteExecutionSummaries respOpB publishedSlotA false).1).map "opA").isSome
      = (publishedSlotA.map "opA").isSome ∧
    fetchRemoteResult false [dataResult] (initialState 1)
      = .ok (processPayload false dataResult (enqueueBlocks dataResult (initialState 1))) [] := by
  have h := unknown_executor_dropped_warned_nonfatal respOpB publishedSlotA
    false "opB" rfl (by decide) (by decide)
  exact ⟨h.1, h.2.1, h.2.2.1 "opA",
    h.2.2.2 false dataResult [] (initialState 1) rfl rfl rfl (by decide)⟩

/-- C6: a transport-level failure makes the fetch fail with a
`remoteReadError` carrying the source message verbatim; the fetch throws
before touching any adapter state (queue, summary table, counters all exactly
as before) and never consumes further results — no retry. -/
theorem transport_error_fatal_verbatim_state_unchanged (stream : Bool)
    (r : RemoteResult) (rest : List RemoteResult) (st : AdapterState)
    (hme : r.meet_error = true) (hblocks : r.blocks = []) :
    fetchRemoteResult stream (r :: rest) st
      = .err (.remoteReadError r.error_msg) st rest := by
  rw [fetch_cons_error stream r rest st hme, enqueueBlocks_nil r st hblocks]

theorem transport_error_fatal_verbatim_state_unchanged_witness :
    fetchRemoteResult true [errorResult] (initialState 1)
      = .err (.remoteReadError "connection reset by peer") (initialState 1) [] :=
  transport_error_fatal_verbatim_state_unchanged true errorResult []
    (initialState 1) rfl rfl

theorem respHasError_of_some (r : RemoteResult) (resp : SelectResponse)
    (h : r.resp = some resp) : respHasError r = resp.has_error := by
  simp [respHasError, h]

theorem findEntry_nonempty (k : String) (resp : SelectResponse)
    (e : SummaryEntry) (h : findEntry k resp = some e) :
    resp.execution_summaries.isEmpty = false := by
  cases hx : resp.execution_summaries with
  | nil => rw [findEntry, hx] at h; exact absurd h (by simp)
  | cons a l => simp

theorem add_inited_eq (resp : SelectResponse) (slot : Slot) (b : Bool)
    (h : slot.inited = true) (hne : resp.execution_summaries.isEmpty = false) :
    (addRemoteExecutionSummaries resp slot b).1
      = ⟨true, (mergeEntries b resp.execution_summaries slot.map).1⟩ := by
  unfold addRemoteExecutionSummaries
  simp [hne, h]

/-- C2: a streaming-mode data result is merged into the slot selected by its
per-connection `call_index`, and on a published slot an operator already
present ends up with the element-wise maximum of the existing and incoming
values of all four fields. -/
theorem streaming_merge_by_call_index_elementwise_max (r : RemoteResult)
    (rest : List RemoteResult) (st : AdapterState) (resp : SelectResponse)
    (k : String) (cur : ExecutionSummary) (e : SummaryEntry)
    (hme : r.meet_error = false) (heof : r.eof = false)
    (hresp : r.resp = some resp) (herr : resp.has_error = false)
    (hrows : r.decode_detail.rows ≠ 0)
    (hinit : (st.execution_summaries.getD r.call_index defaultSlot).inited = true)
    (hcur : (st.execution_summaries.getD r.call_index defaultSlot).map k = some cur)
    (hfind : findEntry k resp = some e) (hnd : (respIds resp).Nodup) :
    ∃ (st' : AdapterState) (m' : SummaryMap),
      fetchRemoteResult true (r :: rest) st = .ok st' rest ∧
      st'.execution_summaries
        = st.execution_summaries.set r.call_index ⟨true, m'⟩ ∧
      m' k = some ⟨max cur.time_processed_ns e.time_processed_ns,
                   max cur.num_produced_rows e.num_produced_rows,
                   max cur.num_iterations e.num_iterations,
                   max cur.concurrency e.concurrency⟩ := by
  have herr' : respHasError r = false := by
    rw [respHasError_of_some r resp hresp]; exact herr
  have hne := findEntry_nonempty k resp e hfind
  refine ⟨processPayload true r (enqueueBlocks r st),
    (mergeEntries true resp.execution_summaries
      (st.execution_summaries.getD r.call_index defaultSlot).map).1, ?_, ?_, ?_⟩
  · rw [fetch_cons_data true r rest st hme heof herr', if_neg hrows]
  · rw [processPayload_summaries_of_resp true r (enqueueBlocks r st) resp hresp,
      enqueueBlocks_summaries]
    simp only [if_true]
    rw [add_inited_eq resp _ true hinit hne]
  · rw [mergeEntries_apply true resp.execution_summaries _ k hnd,
      show resp.execution_summaries.find? (fun x => x.executor_id == some k)
        = some e from hfind, hcur]
    simp [mergeSummary]

theorem streaming_merge_by_call_index_elementwise_max_witness :
    ∃ (st' : AdapterState) (m' : SummaryMap),
      fetchRemoteResult true [streamResult] twoSourceState = .ok st' [] ∧
      st'.execution_summaries
        = twoSourceState.execution_summaries.set 1 ⟨true, m'⟩ ∧
      m' "opA" = some ⟨max 1 1, max 1 1, max 1 1, max 1 1⟩ :=
  streaming_merge_by_call_index_elementwise_max streamResult [] twoSourceState
    respOpA "opA" ⟨1, 1, 1, 1⟩ ⟨some "opA", 1, 1, 1, 1⟩
    rfl rfl rfl rfl (by decide) (by decide) (by decide) (by decide) (by decide)

/-- C3: a batch-mode data result is merged into slot 0, and on a published
slot an operator already present ends up with the maximum of
`time_processed_ns` and the sums of rows, iterations and concurrency; with
contributors each reporting rows=5/time=30 this accumulates to rows=15,
time=30 after three reports. -/
theorem batch_merge_into_slot0_sum_and_max (r : RemoteResult)
    (rest : List RemoteResult) (st : AdapterState) (resp : SelectResponse)
    (k : String) (cur : ExecutionSummary) (e : SummaryEntry)
    (hme : r.meet_error = false) (heof : r.eof = false)
    (hresp : r.resp = some resp) (herr : resp.has_error = false)
    (hrows : r.decode_detail.rows ≠ 0)
    (hinit : (st.execution_summaries.getD 0 defaultSlot).inited = true)
    (hcur : (st.execution_summaries.getD 0 defaultSlot).map k = some cur)
    (hfind : findEntry k resp = some e) (hnd : (respIds resp).Nodup) :
    ∃ (st' : AdapterState) (m' : SummaryMap),
      fetchRemoteResult false (r :: rest) st = .ok st' rest ∧
      st'.execution_summaries = st.execution_summaries.set 0 ⟨true, m'⟩ ∧
      m' k = some ⟨max cur.time_processed_ns e.time_processed_ns,
                   cur.num_produced_rows + e.num_produced_rows,
                   cur.num_iterations + e.num_iterations,
                   cur.concurrency + e.concurrency⟩ := by
  have herr' : respHasError r = false := by
    rw [respHasError_of_some r resp hresp]; exact herr
  have hne := findEntry_nonempty k resp e hfind
  refine ⟨processPayload false r (enqueueBlocks r st),
    (mergeEntries false resp.execution_summaries
      (st.execution_summaries.getD 0 defaultSlot).map).1, ?_, ?_, ?_⟩
  · rw [fetch_cons_data false r rest st hme heof herr', if_neg hrows]
  · rw [processPayload_summaries_of_resp false r (enqueueBlocks r st) resp hresp,
      enqueueBlocks_summaries]
    simp only [Bool.false_eq_true, if_false]
    rw [add_inited_eq resp _ false hinit hne]
  · rw [mergeEntries_apply false resp.execution_summaries _ k hnd,
      show resp.execution_summaries.find? (fun x => x.executor_id == some k)
        = some e from hfind, hcur]
    simp [mergeSummary]

theorem batch_merge_into_slot0_sum_and_max_witness :
    ∃ (st' : AdapterState) (m' : SummaryMap),
      fetchRemoteResult false [dataResult]
          { block_queue := [],
            execution_summaries :=
              [mergeBatchAll [respScenario, respScenario] defaultSlot],
            connection_profile_infos := [⟨2, 200⟩],
            total_rows := 10 }
        = .ok st' [] ∧
      st'.execution_summaries
        = [mergeBatchAll [respScenario, respScenario] defaultSlot].set 0 ⟨true, m'⟩ ∧
      m' "opA" = some ⟨max 30 30, 10 + 5, 2 + 1, 2 + 1⟩ :=
  batch_merge_into_slot0_sum_and_max dataResult []
    { block_queue := [],
      execution_summaries :=
        [mergeBatchAll [respScenario, respScenario] defaultSlot],
      connection_profile_infos := [⟨2, 200⟩],
      total_rows := 10 }
    respScenario "opA" ⟨30, 10, 2, 2⟩ ⟨some "opA", 30, 5, 1, 1⟩
    rfl rfl rfl rfl (by decide) (by decide) (by decide) (by decide) (by decide)

theorem isEmpty_false_of_ne_nil {α : Type} {l : List α} (h : l ≠ []) :
    l.isEmpty = false := by
  cases l with
  | nil => exact absurd rfl h
  | cons a t => simp

/-- C4 fails as stated: permuting two batch reports that mention different
operator-ids changes the final slot-0 aggregate, because the first report
freezes the key set and later unknown ids are dropped. -/
theorem batch_merge_order_dependence_counterexample :
    ([respOpA, respOpB]).Perm [respOpB, respOpA] ∧
    (mergeBatchAll [respOpA, respOpB] defaultSlot).map "opA"
      = some ⟨1, 1, 1, 1⟩ ∧
    (mergeBatchAll [respOpB, respOpA] defaultSlot).map "opA" = none ∧
    mergeBatchAll [respOpA, respOpB] defaultSlot
      ≠ mergeBatchAll [respOpB, respOpA] defaultSlot := by
  refine ⟨List.Perm.swap respOpB respOpA [], by decide, by decide, ?_⟩
  intro h
  have h2 := congrArg (fun s => s.map "opA") h
  simp only at h2
  rw [show (mergeBatchAll [respOpA, respOpB] defaultSlot).map "opA"
      = some ⟨1, 1, 1, 1⟩ from by decide,
    show (mergeBatchAll [respOpB, respOpA] defaultSlot).map "opA"
      = none from by decide] at h2
  exact Option.noConfusion h2

/-- C4 amended: for batch reports that all carry the same operator-id set
(each id listed at most once per report, and every report nonempty), the
slot-0 aggregate is the same for any permutation of the arrival order: the
summed fields and the maximized time field depend only on the multiset of
reports. -/
theorem batch_merge_order_independent_same_keyset
    (rs rs' : List SelectResponse) (K : List String) (hperm : rs.Perm rs')
    (h : ∀ r ∈ rs, r.execution_summaries ≠ [] ∧ (respIds r).Nodup ∧
      (∀ k, k ∈ respIds r ↔ k ∈ K)) :
    mergeBatchAll rs defaultSlot = mergeBatchAll rs' defaultSlot := by
  have h' : ∀ r ∈ rs', r.execution_summaries ≠ [] ∧ (respIds r).Nodup ∧
      (∀ k, k ∈ respIds r ↔ k ∈ K) :=
    fun r hr => h r (hperm.mem_iff.mpr hr)
  cases hrs : rs with
  | nil =>
    rw [hrs] at hperm
    have : rs' = [] := List.eq_nil_of_length_eq_zero (by
      rw [← hperm.length_eq]; rfl)
    rw [this]
  | cons r rest =>
    rw [hrs] at hperm h
    cases hrs' : rs' with
    | nil =>
      rw [hrs'] at hperm
      exact absurd hperm.length_eq (by simp)
    | cons r' rest' =>
      rw [hrs'] at hperm h'
      have hinited1 : (mergeBatchAll (r :: rest) defaultSlot).inited = true := by
        rw [mergeBatchAll_cons, add_uninited r defaultSlot false rfl
          (isEmpty_false_of_ne_nil (h r (List.mem_cons_self r rest)).1)]
        exact mergeBatchAll_inited rest _ rfl
      have hinited2 : (mergeBatchAll (r' :: rest') defaultSlot).inited = true := by
        rw [mergeBatchAll_cons, add_uninited r' defaultSlot false rfl
          (isEmpty_false_of_ne_nil (h' r' (List.mem_cons_self r' rest')).1)]
        exact mergeBatchAll_inited rest' _ rfl
      refine Slot.ext_iff_mk (by rw [hinited1, hinited2]) ?_
      intro k
      by_cases hk : k ∈ K
      · have hx : ∀ x ∈ r :: rest, (respIds x).Nodup ∧ k ∈ respIds x :=
          fun x hxm => ⟨(h x hxm).2.1, ((h x hxm).2.2 k).mpr hk⟩
        have hx' : ∀ x ∈ r' :: rest', (respIds x).Nodup ∧ k ∈ respIds x :=
          fun x hxm => ⟨(h' x hxm).2.1, ((h' x hxm).2.2 k).mpr hk⟩
        rw [mergeBatchAll_formula r rest k hx,
          mergeBatchAll_formula r' rest' k hx']
        rw [Option.some.injEq]
        have ht := natMaxList_perm (hperm.map (timeAt k))
        have hr := (hperm.map (rowsAt k)).sum_eq
        have hi := (hperm.map (itersAt k)).sum_eq
        have hc := (hperm.map (concAt k)).sum_eq
        rw [List.map_cons] at ht hr hi hc
        refine ExecutionSummary.mk.injEq _ _ _ _ _ _ _ _ |>.mpr ?_
        exact ⟨ht, hr, hi, hc⟩
      · have hx : ∀ x ∈ r :: rest, k ∉ respIds x :=
          fun x hxm hmem => hk (((h x hxm).2.2 k).mp hmem)
        have hx' : ∀ x ∈ r' :: rest', k ∉ respIds x :=
          fun x hxm hmem => hk (((h' x hxm).2.2 k).mp hmem)
        rw [mergeBatchAll_absent (r :: rest) defaultSlot k hx,
          mergeBatchAll_absent (r' :: rest') defaultSlot k hx']

theorem batch_merge_order_independent_same_keyset_witness :
    mergeBatchAll [respOpA, respScenario] defaultSlot
      = mergeBatchAll [respScenario, respOpA] defaultSlot := by
  refine batch_merge_order_independent_same_keyset
    [respOpA, respScenario] [respScenario, respOpA] ["opA"]
    (List.Perm.swap respScenario respOpA []) ?_
  intro r hr
  simp only [List.mem_cons, List.not_mem_nil, or_false] at hr
  rcases hr with hr | hr <;> subst hr
  · exact ⟨by decide, by decide, fun k => Iff.rfl⟩
  · exact ⟨by decide, by decide, fun k => Iff.rfl⟩

/-- C7: a run of zero-row results delivers no block — the queue is exactly
what it was — and does not terminate the stream: the fetch outcome is whatever
the remaining script produces; and `readImpl` returns the empty "no more
blocks" result exactly when the queue was empty and the refill hit
end-of-stream. -/
theorem zero_row_results_never_delivered_nor_terminal (stream : Bool)
    (zs script : List RemoteResult) (st : AdapterState)
    (hz : ∀ z ∈ zs, ZeroSkippable z) :
    fetchRemoteResult stream (zs ++ script) st
      = fetchRemoteResult stream script (skipZeros stream zs st) ∧
    (skipZeros stream zs st).block_queue = st.block_queue ∧
    (∀ (st' : AdapterState) (rest : List RemoteResult),
      readImpl stream (zs ++ script) st = .noMoreBlocks st' rest ↔
        (st.block_queue = [] ∧
          fetchRemoteResult stream (zs ++ script) st = .eofReached st' rest)) :=
  ⟨fetch_skipZeros stream zs script st hz,
   skipZeros_queue stream zs st (fun z hzz => (hz z hzz).2.2.2.2),
   fun st' rest => readImpl_noMoreBlocks_iff stream (zs ++ script) st st' rest⟩

theorem zero_row_results_never_delivered_nor_terminal_witness :
    (fetchRemoteResult true ([zeroRowResult] ++ [eofResult]) (initialState 1)
      = fetchRemoteResult true [eofResult]
          (skipZeros true [zeroRowResult] (initialState 1))) ∧
    (skipZeros true [zeroRowResult] (initialState 1)).block_queue
      = (initialState 1).block_queue ∧
    (readImpl true ([zeroRowResult] ++ [eofResult]) (initialState 1)
        = .noMoreBlocks
            (enqueueBlocks eofResult
              (skipZeros true [zeroRowResult] (initialState 1))) [] ↔
      ((initialState 1).block_queue = [] ∧
        fetchRemoteResult true ([zeroRowResult] ++ [eofResult]) (initialState 1)
          = .eofReached
              (enqueueBlocks eofResult
                (skipZeros true [zeroRowResult] (initialState 1))) [])) := by
  have h := zero_row_results_never_delivered_nor_terminal true
    [zeroRowResult] [eofResult] (initialState 1) (by decide)
  exact ⟨h.1, h.2.1, h.2.2 _ _⟩

/-- The recursion depth of a fetch over a run of empty payloads followed by
end-of-stream: one activation per skipped empty payload plus the final one. -/
theorem zeroRun_depth (n : Nat) (st : AdapterState) :
    fetchCallDepth true (List.replicate n zeroRowResult ++ [eofResult]) st
      = n + 1 := by
  have hz : ∀ z ∈ List.replicate n zeroRowResult, ZeroSkippable z := by
    intro z hzz
    rw [List.eq_of_mem_replicate hzz]
    decide
  rw [depth_skipZeros true (List.replicate n zeroRowResult) [eofResult] st hz,
    List.length_replicate]
  rfl

/-- C8 fails as stated: the empty-payload skip is the self-recursive call
`return fetchRemoteResult();` (line 172), so the nesting depth of
`fetchRemoteResult` activations grows without bound in the number of
consecutive empty payloads — it is not a constant-stack iterative loop. -/
theorem empty_payload_retry_depth_unbounded :
    ¬ ∃ B : Nat, ∀ n : Nat,
      fetchCallDepth true (List.replicate n zeroRowResult ++ [eofResult])
        (initialState 1) ≤ B := by
  rintro ⟨B, hB⟩
  have h := hB (B + 1)
  rw [zeroRun_depth (B + 1) (initialState 1)] at h
  omega

/-- C8 amended: the empty-payload skip is a self-recursive retry whose
nesting depth is one activation per consecutive empty payload, and it
terminates as soon as the source yields end-of-stream, a transport error, or
a payload with rows — with the corresponding outcome. -/
theorem empty_payload_retry_recursive_terminating (stream : Bool)
    (zs : List RemoteResult) (script : List RemoteResult) (st : AdapterState)
    (hz : ∀ z ∈ zs, ZeroSkippable z) :
    fetchCallDepth stream (zs ++ script) st
      = zs.length + fetchCallDepth stream script (skipZeros stream zs st) ∧
    (∀ (r : RemoteResult) (rest : List RemoteResult),
      r.meet_error = false → r.eof = true →
      fetchRemoteResult stream (zs ++ r :: rest) st
        = .eofReached (enqueueBlocks r (skipZeros stream zs st)) rest) ∧
    (∀ (r : RemoteResult) (rest : List RemoteResult),
      r.meet_error = true →
      fetchRemoteResult stream (zs ++ r :: rest) st
        = .err (.remoteReadError r.error_msg)
            (enqueueBlocks r (skipZeros stream zs st)) rest) ∧
    (∀ (r : RemoteResult) (rest : List RemoteResult),
      r.meet_error = false → r.eof = false → respHasError r = false →
      r.decode_detail.rows ≠ 0 →
      fetchRemoteResult stream (zs ++ r :: rest) st
        = .ok (processPayload stream r
            (enqueueBlocks r (skipZeros stream zs st))) rest) := by
  refine ⟨depth_skipZeros stream zs script st hz, ?_, ?_, ?_⟩
  · intro r rest hme heof
    rw [fetch_skipZeros stream zs (r :: rest) st hz,
      fetch_cons_eof stream r rest _ hme heof]
  · intro r rest hme
    rw [fetch_skipZeros stream zs (r :: rest) st hz,
      fetch_cons_error stream r rest _ hme]
  · intro r rest hme heof herr hrows
    rw [fetch_skipZeros stream zs (r :: rest) st hz,
      fetch_cons_data stream r rest _ hme heof herr, if_neg hrows]

theorem empty_payload_retry_recursive_terminating_witness :
    fetchCallDepth true ([zeroRowResult] ++ [eofResult]) (initialState 1)
      = [zeroRowResult].length
        + fetchCallDepth true [eofResult]
            (skipZeros true [zeroRowResult] (initialState 1)) ∧
    fetchRemoteResult true ([zeroRowResult] ++ [eofResult]) (initialState 1)
      = .eofReached
          (enqueueBlocks eofResult (skipZeros true [zeroRowResult] (initialState 1)))
          [] := by
  have h := empty_payload_retry_recursive_terminating true [zeroRowResult]
    [eofResult] (initialState 1) (by decide)
  exact ⟨h.1, h.2.1 eofResult [] rfl rfl⟩

/-- C9: whatever mix of zero-row and data results a fetch consumes, the
`total_rows` figure `readSuffixImpl` logs grows by exactly the sum of the
decode-metadata row counts of the consumed results (the terminal end-of-stream
result is returned before the counter update, and contributes 0 whenever its
decode metadata reports 0 rows). -/
theorem total_rows_is_sum_of_fetched_rows (stream : Bool)
    (script : List RemoteResult) (st : AdapterState) :
    (∀ (st' : AdapterState) (rest : List RemoteResult),
      fetchRemoteResult stream script st = .ok st' rest →
      ∃ consumed, script = consumed ++ rest ∧
        readSuffixImpl st' = st.total_rows
          + (consumed.map (fun r => r.decode_detail.rows)).sum) ∧
    (∀ (st' : AdapterState) (rest : List RemoteResult),
      fetchRemoteResult stream script st = .eofReached st' rest →
      ∃ consumed t, script = consumed ++ t :: rest ∧ t.eof = true ∧
        readSuffixImpl st' = st.total_rows
          + (consumed.map (fun r => r.decode_detail.rows)).sum ∧
        (t.decode_detail.rows = 0 →
          readSuffixImpl st' = st.total_rows
            + (((consumed ++ [t]).map (fun r => r.decode_detail.rows)).sum))) := by
  constructor
  · intro st' rest h
    exact fetch_ok_total stream script st st' rest h
  · intro st' rest h
    obtain ⟨consumed, t, hc, ht, htot⟩ := fetch_eof_total stream script st st' rest h
    refine ⟨consumed, t, hc, ht, htot, ?_⟩
    intro hrows0
    rw [readSuffixImpl, htot, List.map_append, List.sum_append]
    simp [hrows0]

theorem total_rows_is_sum_of_fetched_rows_witness :
    ∃ consumed, [dataResult] = consumed ++ ([] : List RemoteResult) ∧
      readSuffixImpl
          (processPayload true dataResult (enqueueBlocks dataResult (initialState 1)))
        = (initialState 1).total_rows
          + (consumed.map (fun r => r.decode_detail.rows)).sum :=
  (total_rows_is_sum_of_fetched_rows true [dataResult] (initialState 1)).1
    (processPayload true dataResult (enqueueBlocks dataResult (initialState 1)))
    [] rfl

/-- C10: the constructor allocates one `ConnectionProfileInfo` per source, a
batch-mode fetch only ever touches index 0 of that array, and starting from
the freshly constructed state every index from 1 up keeps its zero value. -/
theorem batch_profile_counters_only_index0 (n : Nat)
    (script : List RemoteResult) (st : AdapterState) :
    (initialState n).connection_profile_infos.length = n ∧
    (∀ i, 1 ≤ i →
      ((fetchRemoteResult false script st).state).connection_profile_infos[i]?
        = st.connection_profile_infos[i]?) ∧
    (∀ i, 1 ≤ i → i < n →
      ((fetchRemoteResult false script (initialState n)).state).connection_profile_infos[i]?
        = some ⟨0, 0⟩) := by
  refine ⟨by simp [initialState], fun i hi => fetch_batch_infos_frame script st i hi,
    fun i hi hin => ?_⟩
  rw [fetch_batch_infos_frame script (initialState n) i hi]
  simp [initialState, hin]

theorem batch_profile_counters_only_index0_witness :
    (initialState 2).connection_profile_infos.length = 2 ∧
    ((fetchRemoteResult false [dataResult] (initialState 2)).state).connection_profile_infos[1]?
      = (initialState 2).connection_profile_infos[1]? ∧
    ((fetchRemoteResult false [dataResult] (initialState 2)).state).connection_profile_infos[1]?
      = some ⟨0, 0⟩ := by
  have h := batch_profile_counters_only_index0 2 [dataResult] (initialState 2)
  exact ⟨h.1, h.2.1 1 (by decide), h.2.2 1 (by decide) (by decide)⟩
